import Mathlib

/-!
Verification development for the DMG image-assembly package
(`pkg/mactools/dmg/dmg.go`): a shallow embedding of its data model and
of the build / staging / mount orchestration functions, followed by
theorems settling the specification claims against the embedding.

Conventions of the embedding:
* Filesystem trees are modelled by `ZappDMG.Entry`; byte sizes are `Nat`.
* Fallible Go steps return `Except String α`; external side effects
  performed by a build function are recorded in a `List ZappDMG.Action`
  trace, so that theorems can speak about which external operations ran
  and with which arguments.
* Outcomes of the external `hdiutil` / filesystem primitives (attach,
  detach, link, copy, ...) are supplied by environment records of
  booleans or `String → Bool` oracles: the Go code only branches on
  whether those primitives returned an error, never on their payloads.
-/

namespace ZappDMG

/-- Entry models one node of an on-disk file tree, as observed by
`os.ReadDir` / `filepath.Walk`: a regular file with a byte size, or a
directory with a list of named children. -/
inductive Entry where
  | file (name : String) (size : Nat)
  | dir (name : String) (children : List Entry)
deriving Repr

/-- Name of a tree node (the `entry.Name()` of `os.ReadDir`). -/
def entryName : Entry → String
  | Entry.file n _ => n
  | Entry.dir n _ => n

/-- Sum of the sizes of all regular files in a list of entries,
recursively: the accumulation performed by the `filepath.Walk` callbacks
in `CreateDMGLikeBash` and `calculateDirSize`, which add `info.Size()`
only when `!info.IsDir()`. -/
def entriesSize : List Entry → Nat
  | [] => 0
  | Entry.file _ s :: rest => s + entriesSize rest
  | Entry.dir _ cs :: rest => entriesSize cs + entriesSize rest

/-- Size accumulated by walking a tree rooted at a single node: a file
root contributes its own size, a directory root contributes the sizes of
the regular files below it. -/
def walkSize : Entry → Nat
  | Entry.file _ s => s
  | Entry.dir _ cs => entriesSize cs

/-- Model of Go `strings.HasSuffix src suffix` on the byte/char list of
the strings. -/
def hasSuffixS (s suff : String) : Bool :=
  suff.data.isSuffixOf s.data

/-- Model of Go `filepath.Base`: empty path gives ".", trailing
separators are stripped, the last path component is returned, and a path
of only separators gives "/". -/
def basename (p : String) : String :=
  if p = "" then "." else
  let r := (p.data.reverse).dropWhile (fun c => c = '/')
  if r = [] then "/" else String.mk ((r.takeWhile (fun c => c ≠ '/')).reverse)

/-- ItemType mirrors the Go `ItemType` enumeration ("dir", "file",
"link"). -/
inductive ItemType where
  | dir
  | file
  | link
deriving Repr, DecidableEq

/-- Item mirrors the Go `Item` struct: one requested DMG entry with a
window position, a kind and a source path. -/
structure Item where
  x : Int
  y : Int
  type : ItemType
  path : String
deriving Repr, DecidableEq

/-- Config mirrors the Go `Config` struct (the `LogWriter` field, an
output sink the code only prints to, is not represented; the
`hdiutil.Format` string type is modelled as `String`). -/
structure Config where
  fileName : String
  title : String
  icon : String
  labelSize : Int
  contentsIconSize : Int
  windowWidth : Int
  windowHeight : Int
  background : String
  contents : List Item
  format : String
  compressionLevel : String
  useHardLinks : Bool
  optimizeAppSize : Bool
deriving Repr, DecidableEq

/-- Filename normalization performed by `CreateDMG` (lines 84-90),
`CreateDMGDirect` (lines 155-161) and `CreateDMGLikeBash` (lines
237-243): an empty `FileName` becomes `Title + ".dmg"`, and a ".dmg"
suffix is appended when missing. -/
def normFileName (fileName title : String) : String :=
  let f := if fileName = "" then title ++ ".dmg" else fileName
  if hasSuffixS f ".dmg" then f else f ++ ".dmg"

/-- Format defaulting performed by `CreateDMG` (lines 93-95) and
`CreateDMGDirect` (lines 164-166): an unset format becomes `UDZO`. -/
def normFormat (format : String) : String :=
  if format = "" then "UDZO" else format

/-- Size computation of `CreateDMGLikeBash` (lines 267-275), applied to
the walked byte total: `sizeMB := int(totalSize/(1024*1024)) +
int(float64(totalSize/(1024*1024))*0.5)` clamped to [200, 2000].
Multiplying a float64 by 0.5 is exact (an exponent decrement) and the
`int64 → float64` conversion is exact for every value the megabyte count
can take, so the truncated float product equals `mb / 2` in natural
division. -/
def bashSizeMB (totalSize : Nat) : Nat :=
  let mb := totalSize / (1024 * 1024)
  let sizeMB := mb + mb / 2
  if sizeMB < 200 then 200 else if sizeMB > 2000 then 2000 else sizeMB

/-- Size computation of `calculateDirSize` (lines 1096-1104), applied to
the walked byte total: `sizeMB := int(totalSize/(1024*1024)) +
int(float64(totalSize/(1024*1024))*0.2)` with a floor of 100 and no
ceiling. For every megabyte count `mb` reachable here (`mb < 2^43`) the
float64 product `mb * 0.2` differs from the rational `mb/5` by less than
the distance to the nearest integer boundary on either side, so the
truncated product equals `mb / 5` in natural division. -/
def calculateDirSizeMB (totalSize : Nat) : Nat :=
  let mb := totalSize / (1024 * 1024)
  let sizeMB := mb + mb / 5
  if sizeMB < 100 then 100 else sizeMB

/-- Byte total and megabyte estimate of `calculateDirSize` for a
directory whose entries are the given list (the `filepath.Walk`
succeeds on every node). -/
def calculateDirSize (dirEntries : List Entry) : Nat :=
  calculateDirSizeMB (entriesSize dirEntries)

/-- Exclusion patterns of `smartCopyDir` (lines 916-926). -/
def excludePatterns : List String :=
  [".DS_Store", "__MACOSX", ".Trashes", ".fseventsd", ".Spotlight-V100",
   ".TemporaryItems", "*.tmp", "*.log", "*.cache"]

/-- Model of `filepath.Match pattern name` for the concrete patterns in
`excludePatterns`: the three starred patterns hold exactly when the name
ends with the pattern's literal suffix (a `*` matches any run of
non-separator characters and `os.ReadDir` names contain no separator);
the remaining patterns are literal and match only themselves. -/
def matchPattern (pattern name : String) : Bool :=
  if pattern = "*.tmp" then hasSuffixS name ".tmp"
  else if pattern = "*.log" then hasSuffixS name ".log"
  else if pattern = "*.cache" then hasSuffixS name ".cache"
  else pattern = name

/-- Exclusion test `shouldExclude` of `smartCopyDir` (lines 929-937). -/
def shouldExclude (name : String) : Bool :=
  excludePatterns.any (fun p => matchPattern p name)

/-- Recursive copy performed by `smartCopyDir` (lines 939-963) on a list
of directory entries: excluded names are skipped, sub-directories are
smart-copied recursively, files are copied. -/
def smartCopyEntries : List Entry → List Entry
  | [] => []
  | Entry.file n s :: rest =>
    if shouldExclude n then smartCopyEntries rest
    else Entry.file n s :: smartCopyEntries rest
  | Entry.dir n cs :: rest =>
    if shouldExclude n then smartCopyEntries rest
    else Entry.dir n (smartCopyEntries cs) :: smartCopyEntries rest

/-- Method tags how one `Item` got materialized into a working
directory by a staging strategy. -/
inductive Method where
  | copiedFile
  | hardLinkedFile
  | hardLinkedDir
  | copiedDir
  | smartCopiedDir
  | symlinked
deriving Repr, DecidableEq

/-- StageEnv supplies the outcome of every fallible filesystem
primitive a staging strategy may invoke, keyed by the source path it is
invoked on: `os.Link`, `copyFile`, `copyDirWithHardLinks` (as a whole),
`copyDir`, `smartCopyAppBundle` and `os.Symlink`. -/
structure StageEnv where
  linkOk : String → Bool
  copyFileOk : String → Bool
  hardDirOk : String → Bool
  copyDirOk : String → Bool
  smartOk : String → Bool
  symlinkOk : String → Bool

/-- Staging of a single item by `setupSourceDirectory` (lines 646-695):
the per-item `switch` over the item type, including the
hard-link-then-copy fallback used when `UseHardLinks` is set and the
smart copy used for `.app` bundles otherwise. On success it yields the
destination base name and the method that produced it. -/
def stageOne (env : StageEnv) (useHardLinks : Bool) (it : Item) :
    Except String (String × Method) :=
  let name := basename it.path
  match it.type with
  | ItemType.file =>
    if useHardLinks then
      if env.linkOk it.path then Except.ok (name, Method.hardLinkedFile)
      else if env.copyFileOk it.path then Except.ok (name, Method.copiedFile)
      else Except.error ("failed to copy file " ++ it.path)
    else
      if env.copyFileOk it.path then Except.ok (name, Method.copiedFile)
      else Except.error ("failed to copy file " ++ it.path)
  | ItemType.dir =>
    if useHardLinks then
      if env.hardDirOk it.path then Except.ok (name, Method.hardLinkedDir)
      else if env.copyDirOk it.path then Except.ok (name, Method.copiedDir)
      else Except.error ("failed to copy dir " ++ it.path)
    else
      if hasSuffixS it.path ".app" then
        if env.smartOk it.path then Except.ok (name, Method.smartCopiedDir)
        else Except.error ("failed to smart copy app bundle " ++ it.path)
      else
        if env.copyDirOk it.path then Except.ok (name, Method.copiedDir)
        else Except.error ("failed to copy dir " ++ it.path)
  | ItemType.link =>
    if env.symlinkOk it.path then Except.ok (name, Method.symlinked)
    else Except.error ("failed to create symbolic link " ++ it.path)

/-- Item loop of `setupSourceDirectory` (lines 646-695): items are
staged in list order and the first failure aborts the loop. -/
def setupStage (env : StageEnv) (useHardLinks : Bool) :
    List Item → Except String (List (String × Method))
  | [] => Except.ok []
  | it :: rest =>
    match stageOne env useHardLinks it with
    | Except.error e => Except.error e
    | Except.ok entry =>
      (setupStage env useHardLinks rest).map (fun r => entry :: r)

/-- Staging of a single item by the loop of `createDMGWithSafeHardLinks`
(lines 395-418): files try a hard link and fall back to a copy,
directories are smart-copied, links become symlinks. -/
def stageOneSafe (env : StageEnv) (it : Item) :
    Except String (String × Method) :=
  let name := basename it.path
  match it.type with
  | ItemType.file =>
    if env.linkOk it.path then Except.ok (name, Method.hardLinkedFile)
    else if env.copyFileOk it.path then Except.ok (name, Method.copiedFile)
    else Except.error ("failed to copy file " ++ it.path)
  | ItemType.dir =>
    if env.smartOk it.path then Except.ok (name, Method.smartCopiedDir)
    else Except.error ("failed to smart copy dir " ++ it.path)
  | ItemType.link =>
    if env.symlinkOk it.path then Except.ok (name, Method.symlinked)
    else Except.error ("failed to create symlink " ++ it.path)

/-- Item loop of `createDMGWithSafeHardLinks` (lines 395-418). -/
def safeStage (env : StageEnv) :
    List Item → Except String (List (String × Method))
  | [] => Except.ok []
  | it :: rest =>
    match stageOneSafe env it with
    | Except.error e => Except.error e
    | Except.ok entry => (safeStage env rest).map (fun r => entry :: r)

/-- Item loop of `createSymbolicLinks` (lines 970-991): every item kind
is materialized as a symbolic link named by its base name. -/
def symlinkStage (env : StageEnv) :
    List Item → Except String (List (String × Method))
  | [] => Except.ok []
  | it :: rest =>
    if env.symlinkOk it.path then
      (symlinkStage env rest).map
        (fun r => (basename it.path, Method.symlinked) :: r)
    else Except.error ("failed to create symbolic link " ++ it.path)

/-- Staged models one node materialized in a destination tree by the
recursive hard-link copy: a hard-linked file, a fallback-copied file, or
a freshly created directory. -/
inductive Staged where
  | linked (name : String) (size : Nat)
  | copied (name : String) (size : Nat)
  | dir (name : String) (children : List Staged)
deriving Repr

/-- Recursive body of `copyDirWithHardLinks` (lines 810-833) on a list
of source entries rooted at path `base`: each file first attempts
`os.Link` and falls back to `copyFile`; the first file for which both
fail aborts the copy with that file's path; directories recurse. -/
def hardLinkStage (linkOk copyOk : String → Bool) (base : String) :
    List Entry → Except String (List Staged)
  | [] => Except.ok []
  | Entry.file n s :: rest =>
    let p := base ++ "/" ++ n
    if linkOk p then
      (hardLinkStage linkOk copyOk base rest).map
        (fun r => Staged.linked n s :: r)
    else if copyOk p then
      (hardLinkStage linkOk copyOk base rest).map
        (fun r => Staged.copied n s :: r)
    else Except.error p
  | Entry.dir n cs :: rest =>
    match hardLinkStage linkOk copyOk (base ++ "/" ++ n) cs with
    | Except.error e => Except.error e
    | Except.ok c =>
      (hardLinkStage linkOk copyOk base rest).map
        (fun r => Staged.dir n c :: r)

/-- Paths of all regular files in a list of entries rooted at `base`,
in traversal order. -/
def filePaths (base : String) : List Entry → List String
  | [] => []
  | Entry.file n _ :: rest => (base ++ "/" ++ n) :: filePaths base rest
  | Entry.dir n cs :: rest =>
    filePaths (base ++ "/" ++ n) cs ++ filePaths base rest

/-- Destination tree the hard-link copy produces when no file fails both
primitives: files with a working `os.Link` are hard-linked, the others
are copied, directories are recreated. -/
def hardLinkExpected (linkOk : String → Bool) (base : String) :
    List Entry → List Staged
  | [] => []
  | Entry.file n s :: rest =>
    (if linkOk (base ++ "/" ++ n) then Staged.linked n s
     else Staged.copied n s) :: hardLinkExpected linkOk base rest
  | Entry.dir n cs :: rest =>
    Staged.dir n (hardLinkExpected linkOk (base ++ "/" ++ n) cs) ::
      hardLinkExpected linkOk base rest

/-- Action records one externally visible operation of a build, with
the arguments the Go code passes to it. -/
inductive Action where
  | create (title srcDir format outFile : String)
  | createWithSize (title srcDir format outFile : String) (sizeMB : Nat)
  | convert (src format out : String)
  | attach (img : String)
  | runCallback (img : String)
  | forceDetach (img : String)
  | setFileIcon (outFile : String)
deriving Repr, DecidableEq

/-- MountEnv supplies the outcomes of the three fallible steps of
`tmpMount`: the temporary mount-point directory creation,
`hdiutil.Attach` and `hdiutil.Detach`. -/
structure MountEnv where
  mkdirTempOk : Bool
  attachOk : Bool
  detachOk : Bool
deriving Repr, DecidableEq

/-- Model of `tmpMount` (lines 582-605) for a callback whose outcome is
`procResult`: the mount point is created and the image attached; the
callback runs only after a successful attach; the deferred detach (and,
when the detach fails, the `forceDetachDMG` recovery) runs after the
callback, and the value returned to the caller is exactly the value
`process` returned — the deferred closure only prints a warning and
never assigns the return value. -/
def tmpMount (env : MountEnv) (img : String)
    (procResult : Except String Unit) : Except String Unit × List Action :=
  if env.mkdirTempOk = false then
    (Except.error "failed to create temporary directory", [])
  else if env.attachOk = false then
    (Except.error "failed to attach DMG", [Action.attach img])
  else
    (procResult,
      [Action.attach img, Action.runCallback img] ++
        (if env.detachOk then [] else [Action.forceDetach img]))

/-- ConvEnv supplies the outcomes of the steps shared by the three
compressed-build helpers: the creation of the temporary read-write
image, the `tmpMount` customization pass (whose callback outcome is
`callbackResult`) and the final `hdiutil convert` invocation. -/
structure ConvEnv where
  createOk : Bool
  mount : MountEnv
  callbackResult : Except String Unit
  convertOk : Bool

/-- Common body of `createCompressedDMG` (lines 474-542),
`createCompressedDMGDirect` (lines 1008-1076) and
`createCompressedDMGWithSize` (lines 1108-1176): create a temporary
read-write image from `srcDir` (with a pre-declared size when `size?` is
given), mount and customize it when an icon or background is configured,
force-detach, then convert to `cfg.format` at `cfg.fileName`. The
temporary image name `temp_<nanos>_<base>` is modelled as
`"temp_" ++ cfg.fileName`. -/
def compressedCore (env : ConvEnv) (cfg : Config) (srcDir : String)
    (size? : Option Nat) : Except String Unit × List Action :=
  let tempDMG := "temp_" ++ cfg.fileName
  let createAct :=
    match size? with
    | none => Action.create cfg.title srcDir "UDRW" tempDMG
    | some n => Action.createWithSize cfg.title srcDir "UDRW" tempDMG n
  if env.createOk = false then
    (Except.error "failed to create temp dmg", [createAct])
  else
    let mountStep : Except String Unit × List Action :=
      if cfg.icon = "" && cfg.background = "" then (Except.ok (), [])
      else tmpMount env.mount tempDMG env.callbackResult
    match mountStep.fst with
    | Except.error e => (Except.error e, createAct :: mountStep.snd)
    | Except.ok _ =>
      let tr := createAct :: mountStep.snd ++
        [Action.forceDetach tempDMG,
         Action.convert tempDMG cfg.format cfg.fileName]
      if env.convertOk then (Except.ok (), tr)
      else (Except.error "hdiutil convert failed", tr)

/-- Model of `createCompressedDMG` (lines 474-542). -/
def createCompressedDMG (env : ConvEnv) (cfg : Config) (srcDir : String) :
    Except String Unit × List Action :=
  compressedCore env cfg srcDir none

/-- Common return step of the builders: an error from the
image-creation phase is returned unchanged with its trace; on success
the post-build actions are appended to the trace. -/
def finishBuild (built : Except String Unit × List Action)
    (tailActs : List Action) : Except String Unit × List Action :=
  match built with
  | (Except.error e, tr) => (Except.error e, tr)
  | (Except.ok _, tr) => (Except.ok (), tr ++ tailActs)

/-- SafeEnv supplies the outcomes of the steps of
`createDMGWithSafeHardLinks`: the safe temporary directory creation, the
staging loop, the `.DS_Store` write, the background copy, the byte total
`calculateDirSize` observes when walking the staging directory, the
environment of `createCompressedDMGWithSize`, and the plain
`hdiutil.CreateWithSize` of the non-compressed branch. -/
structure SafeEnv where
  mkdirTempOk : Bool
  stage : StageEnv
  storeWriteOk : Bool
  bgOk : Bool
  dirBytes : Nat
  conv : ConvEnv
  createWithSizeOk : Bool

/-- Model of `createDMGWithSafeHardLinks` (lines 386-471). Note that
this function applies neither the filename nor the format normalization:
it consumes `cfg.fileName` and `cfg.format` exactly as passed in. -/
def createDMGWithSafeHardLinks (env : SafeEnv) (cfg : Config) :
    Except String Unit × List Action :=
  if env.mkdirTempOk = false then
    (Except.error "failed to create safe temporary directory", [])
  else
    match safeStage env.stage cfg.contents with
    | Except.error e => (Except.error e, [])
    | Except.ok _ =>
      if env.storeWriteOk = false then
        (Except.error "failed to write .DS_Store", [])
      else if cfg.background ≠ "" && env.bgOk = false then
        (Except.error "failed to copy background", [])
      else
        let sizeMB := calculateDirSizeMB env.dirBytes
        let built : Except String Unit × List Action :=
          if cfg.format = "UDZO" || cfg.format = "UDBZ" then
            let r := compressedCore env.conv cfg "safeTempDir" (some sizeMB)
            (r.fst.mapError
              (fun e => "failed to create compressed dmg: " ++ e), r.snd)
          else
            let act := Action.createWithSize cfg.title "safeTempDir"
              cfg.format cfg.fileName sizeMB
            if env.createWithSizeOk = false then
              (Except.error "failed to create dmg", [act])
            else (Except.ok (), [act])
        finishBuild built
          (if cfg.icon ≠ "" then [Action.setFileIcon cfg.fileName] else [])

/-- CreateEnv supplies the outcomes of every fallible step of
`CreateDMG`: the source-directory creation, the staging environment of
`setupSourceDirectory` together with its background copy, the
`.DS_Store` write, the compressed-path environment, the plain
`hdiutil.Create`, the rename and `hdiutil.Convert` of the `UDRW`
branch, the final customization mount with its callback outcome, and
the environment of the `UseHardLinks` delegation. -/
structure CreateEnv where
  mkdirAllOk : Bool
  stage : StageEnv
  bgOk : Bool
  storeWriteOk : Bool
  conv : ConvEnv
  createOk : Bool
  renameOk : Bool
  convertOk : Bool
  mount : MountEnv
  customizeResult : Except String Unit
  safe : SafeEnv

/-- Model of `setupSourceDirectory` (lines 630-708): the optional
`optimizeAppBundle` pass only logs its failures (it cannot fail the
build, so it has no outcome here), then the items are staged and the
background image is copied. -/
def setupSourceDirectory (env : StageEnv) (bgOk : Bool) (cfg : Config) :
    Except String (List (String × Method)) :=
  match setupStage env cfg.useHardLinks cfg.contents with
  | Except.error e => Except.error e
  | Except.ok l =>
    if cfg.background ≠ "" && bgOk = false then
      Except.error "failed to copy background"
    else Except.ok l

/-- Model of `CreateDMG` (lines 52-146). The `UseHardLinks` delegation
(line 54) happens before any normalization. At the end (lines 124-145)
the customization error of `tmpMount` is assigned to `err` at line 126
but never checked: `CreateDMG` unconditionally returns `nil` after it,
which this model reproduces. -/
def createDMG (env : CreateEnv) (cfg : Config) :
    Except String Unit × List Action :=
  if cfg.useHardLinks then createDMGWithSafeHardLinks env.safe cfg
  else if env.mkdirAllOk = false then
    (Except.error "failed to create source directory", [])
  else
    match setupSourceDirectory env.stage env.bgOk cfg with
    | Except.error e =>
      (Except.error ("failed to setup source directory: " ++ e), [])
    | Except.ok _ =>
      if env.storeWriteOk = false then
        (Except.error "failed to write .DS_Store", [])
      else
        let fileName := normFileName cfg.fileName cfg.title
        let format := normFormat cfg.format
        let cfg2 := { cfg with fileName := fileName, format := format }
        let built : Except String Unit × List Action :=
          if format = "UDZO" || format = "UDBZ" then
            let r := createCompressedDMG env.conv cfg2 "sourceDir"
            (r.fst.mapError
              (fun e => "failed to create compressed dmg: " ++ e), r.snd)
          else
            if env.createOk = false then
              (Except.error "failed to create dmg",
               [Action.create cfg2.title "sourceDir" format fileName])
            else
              let t0 := [Action.create cfg2.title "sourceDir" format fileName]
              if format = "UDRW" then
                if env.renameOk = false then
                  (Except.error "failed to rename DMG file", t0)
                else
                  let t1 := t0 ++
                    [Action.convert ("temp_" ++ fileName) "UDRO" fileName]
                  if env.convertOk = false then
                    (Except.error "failed to convert DMG", t1)
                  else (Except.ok (), t1)
              else (Except.ok (), t0)
        finishBuild built
          ((if cfg.icon ≠ "" || cfg.background ≠ "" then
              (tmpMount env.mount fileName env.customizeResult).snd
            else []) ++
           (if cfg.icon ≠ "" then [Action.setFileIcon fileName] else []))

/-- DirectEnv supplies the outcomes of the steps of `CreateDMGDirect`. -/
structure DirectEnv where
  mkdirTempOk : Bool
  stage : StageEnv
  bgOk : Bool
  storeWriteOk : Bool
  conv : ConvEnv
  createOk : Bool
  renameOk : Bool
  convertOk : Bool

/-- Model of `createSymbolicLinks` (lines 969-1005): symlink staging of
every item followed by the real-file background copy. -/
def createSymbolicLinks (env : StageEnv) (bgOk : Bool) (cfg : Config) :
    Except String (List (String × Method)) :=
  match symlinkStage env cfg.contents with
  | Except.error e => Except.error e
  | Except.ok l =>
    if cfg.background ≠ "" && bgOk = false then
      Except.error "failed to copy background"
    else Except.ok l

/-- Model of `CreateDMGDirect` (lines 149-228): normalization, symlink
staging into a temporary directory, `.DS_Store` write, then the same
compressed / plain split as `CreateDMG`; the final `setFileIcon` result
is ignored. -/
def createDMGDirect (env : DirectEnv) (cfg : Config) :
    Except String Unit × List Action :=
  let fileName := normFileName cfg.fileName cfg.title
  let format := normFormat cfg.format
  let cfg2 := { cfg with fileName := fileName, format := format }
  if env.mkdirTempOk = false then
    (Except.error "failed to create temporary directory", [])
  else
    match createSymbolicLinks env.stage env.bgOk cfg with
    | Except.error e =>
      (Except.error ("failed to create symbolic links: " ++ e), [])
    | Except.ok _ =>
      if env.storeWriteOk = false then
        (Except.error "failed to write .DS_Store", [])
      else
        let built : Except String Unit × List Action :=
          if format = "UDZO" || format = "UDBZ" then
            let r := compressedCore env.conv cfg2 "tempDir" none
            (r.fst.mapError
              (fun e => "failed to create compressed dmg: " ++ e), r.snd)
          else
            if env.createOk = false then
              (Except.error "failed to create dmg",
               [Action.create cfg2.title "tempDir" format fileName])
            else
              let t0 := [Action.create cfg2.title "tempDir" format fileName]
              if format = "UDRW" then
                if env.renameOk = false then
                  (Except.error "failed to rename DMG file", t0)
                else
                  let t1 := t0 ++
                    [Action.convert ("temp_" ++ fileName) "UDRO" fileName]
                  if env.convertOk = false then
                    (Except.error "failed to convert DMG", t1)
                  else (Except.ok (), t1)
              else (Except.ok (), t0)
        finishBuild built
          (if cfg.icon ≠ "" then [Action.setFileIcon fileName] else [])

/-- BashEnv supplies the filesystem observed by the size walk of
`CreateDMGLikeBash` together with the outcomes of its fallible steps. -/
structure BashEnv where
  fs : String → Option Entry
  createWithSizeOk : Bool
  mount : MountEnv
  callbackResult : Except String Unit
  convertOk : Bool

/-- Byte total of the size loop of `CreateDMGLikeBash` (lines 252-265):
only items of type `Dir` are walked, summing regular-file sizes; a walk
whose root does not exist contributes nothing (the `filepath.Walk`
error is discarded). -/
def bashTotalSize (fs : String → Option Entry) : List Item → Nat
  | [] => 0
  | it :: rest =>
    (if it.type = ItemType.dir then
      (match fs it.path with
       | some e => walkSize e
       | none => 0)
     else 0) + bashTotalSize fs rest

/-- Test used by the main-app search of `CreateDMGLikeBash` (lines
282-287): the item is of type `Dir` and its path ends in ".app". -/
def isAppDirItem (it : Item) : Bool :=
  it.type = ItemType.dir && hasSuffixS it.path ".app"

/-- Model of `CreateDMGLikeBash` (lines 231-383): filename
normalization, size estimation, main-app lookup (first matching item,
error when none matches, before any image is created), creation of the
sized read-write image directly from the app bundle, mount with the
customization callback, conversion to literal "UDZO", and the ignored
final `setFileIcon`. -/
def createDMGLikeBash (env : BashEnv) (cfg : Config) :
    Except String Unit × List Action :=
  let fileName := normFileName cfg.fileName cfg.title
  let tempDMG := "temp_" ++ fileName
  let sizeMB := bashSizeMB (bashTotalSize env.fs cfg.contents)
  match cfg.contents.find? isAppDirItem with
  | none => (Except.error "no .app directory found in contents", [])
  | some mainApp =>
    let act := Action.createWithSize cfg.title mainApp.path "UDRW"
      tempDMG sizeMB
    if env.createWithSizeOk = false then
      (Except.error "failed to create temp dmg", [act])
    else
      let m := tmpMount env.mount tempDMG env.callbackResult
      match m.fst with
      | Except.error e => (Except.error e, act :: m.snd)
      | Except.ok _ =>
        let tr := act :: m.snd ++ [Action.convert tempDMG "UDZO" fileName]
        if env.convertOk = false then
          (Except.error "hdiutil convert failed", tr)
        else
          (Except.ok (),
            tr ++ (if cfg.icon ≠ "" then [Action.setFileIcon fileName]
                   else []))

/-- Output file targeted by an action, when the action produces an
image file: the `outPath` of a create / create-with-size / convert. -/
def actionOutFile : Action → Option String
  | Action.create _ _ _ o => some o
  | Action.createWithSize _ _ _ o _ => some o
  | Action.convert _ _ o => some o
  | Action.attach _ => none
  | Action.runCallback _ => none
  | Action.forceDetach _ => none
  | Action.setFileIcon _ => none

/-- Trace property used by the filename-normalization claim: every
action in the trace that targets an output image file targets one whose
name ends in ".dmg". -/
def outsOk (tr : List Action) : Prop :=
  ∀ a ∈ tr, ∀ o, actionOutFile a = some o → hasSuffixS o ".dmg" = true

/-- Capacity formula exactly as claim C3 states it, in exact rational
arithmetic: clamp(ceil(S / 1MiB) * 1.5, 200, 2000). -/
def bashClaimMB (S : Nat) : ℚ :=
  max 200 (min 2000
    ((((S + 1024 * 1024 - 1) / (1024 * 1024) : Nat) : ℚ) * (3 / 2)))

/-- Capacity formula exactly as claim C4 states it, in exact rational
arithmetic: max(ceil(S / 1MiB) * 1.2, 100). -/
def leanClaimMB (S : Nat) : ℚ :=
  max ((((S + 1024 * 1024 - 1) / (1024 * 1024) : Nat) : ℚ) * (6 / 5)) 100

theorem hasSuffixS_append (s t : String) : hasSuffixS (s ++ t) t = true := by
  unfold hasSuffixS
  rw [String.data_append]
  exact List.isSuffixOf_iff_suffix.mpr (List.suffix_append s.data t.data)

theorem hasSuffixS_append_left (pre s t : String)
    (h : hasSuffixS s t = true) : hasSuffixS (pre ++ s) t = true := by
  unfold hasSuffixS at h ⊢
  rw [String.data_append]
  exact List.isSuffixOf_iff_suffix.mpr
    ((List.isSuffixOf_iff_suffix.mp h).trans (List.suffix_append pre.data s.data))

theorem normFileName_hasSuffix (f t : String) :
    hasSuffixS (normFileName f t) ".dmg" = true := by
  unfold normFileName
  by_cases hf : f = ""
  · simp only [hf, if_pos rfl]
    by_cases hs : hasSuffixS (t ++ ".dmg") ".dmg" = true
    · simp [hs]
    · simp [hs, hasSuffixS_append]
  · simp only [if_neg hf]
    by_cases hs : hasSuffixS f ".dmg" = true
    · simp [hs]
    · simp [hs, hasSuffixS_append]

/-- C1: in every invocation of the mount orchestrator `tmpMount` whose
mount-point creation and `Attach` succeed, the value returned to the
caller is exactly the result of the caller-supplied callback, for every
detach outcome: a primary `Detach` failure and the forced-detach
recovery pass are only logged and never replace or suppress the
callback's result. -/
theorem tmpMount_returns_callback_result (env : MountEnv) (img : String)
    (r : Except String Unit)
    (hmk : env.mkdirTempOk = true) (hat : env.attachOk = true) :
    (tmpMount env img r).fst = r := by
  simp [tmpMount, hmk, hat]

theorem tmpMount_returns_callback_result_witness :
    (tmpMount ⟨true, true, false⟩ "a.dmg" (Except.error "customize failed")).fst
      = Except.error "customize failed" :=
  tmpMount_returns_callback_result ⟨true, true, false⟩ "a.dmg"
    (Except.error "customize failed") rfl rfl

/-- C6: in the compressed build path, a failing `Attach` aborts the
build with an error before the customization callback runs and before
the conversion step, so the final image file is never produced. -/
theorem createCompressedDMG_attach_failure_aborts (env : ConvEnv)
    (cfg : Config) (srcDir : String)
    (hic : cfg.icon ≠ "" ∨ cfg.background ≠ "")
    (hc : env.createOk = true)
    (hmk : env.mount.mkdirTempOk = true)
    (hat : env.mount.attachOk = false) :
    (createCompressedDMG env cfg srcDir).fst =
      Except.error "failed to attach DMG"
    ∧ (∀ i, Action.runCallback i ∉ (createCompressedDMG env cfg srcDir).snd)
    ∧ (∀ s f o, Action.convert s f o ∉ (createCompressedDMG env cfg srcDir).snd) := by
  have hcond : (decide (cfg.icon = "") && decide (cfg.background = "")) = false := by
    rcases hic with h | h <;> simp [h]
  unfold createCompressedDMG compressedCore tmpMount
  simp [hc, hcond, hmk, hat]

theorem createCompressedDMG_attach_failure_aborts_witness :
    (createCompressedDMG ⟨true, ⟨true, false, true⟩, Except.ok (), true⟩
        { fileName := "out.dmg", title := "T", icon := "i.icns",
          labelSize := 0, contentsIconSize := 0, windowWidth := 0,
          windowHeight := 0, background := "", contents := [],
          format := "UDZO", compressionLevel := "", useHardLinks := false,
          optimizeAppSize := false } "src").fst =
      Except.error "failed to attach DMG" :=
  (createCompressedDMG_attach_failure_aborts _ _ "src"
    (Or.inl (by decide)) rfl rfl rfl).1

theorem find?_first {α : Type} (f : α → Bool) (pre : List α) (it : α)
    (post : List α) (hpre : ∀ p ∈ pre, f p = false) (hit : f it = true) :
    (pre ++ it :: post).find? f = some it := by
  induction pre with
  | nil => simpa using List.find?_cons_of_pos post hit
  | cons a as ih =>
    have ha : f a = false := hpre a (by simp)
    rw [List.cons_append, List.find?_cons_of_neg _ (by simp [ha])]
    exact ih (fun p hp => hpre p (by simp [hp]))

/-- C10: `CreateDMGLikeBash` returns an error, and creates no writable
image, whenever no item of `Config.Contents` has type `Dir` with a path
ending in ".app"; and when such an item exists, the primary application
bundle used as the creation source is the first such item in list
order. -/
theorem createDMGLikeBash_requires_app (env : BashEnv) (cfg : Config) :
    ((∀ it ∈ cfg.contents, isAppDirItem it = false) →
      (createDMGLikeBash env cfg).fst =
        Except.error "no .app directory found in contents" ∧
      (createDMGLikeBash env cfg).snd = [])
    ∧ (∀ pre it post, cfg.contents = pre ++ it :: post →
        (∀ p ∈ pre, isAppDirItem p = false) → isAppDirItem it = true →
        Action.createWithSize cfg.title it.path "UDRW"
            ("temp_" ++ normFileName cfg.fileName cfg.title)
            (bashSizeMB (bashTotalSize env.fs cfg.contents)) ∈
          (createDMGLikeBash env cfg).snd) := by
  constructor
  · intro hnone
    have hfind : cfg.contents.find? isAppDirItem = none :=
      List.find?_eq_none.mpr (fun x hx => by simp [hnone x hx])
    unfold createDMGLikeBash
    rw [hfind]
    exact ⟨rfl, rfl⟩
  · intro pre it post hsplit hpre hit
    have hfind : cfg.contents.find? isAppDirItem = some it := by
      rw [hsplit]; exact find?_first _ pre it post hpre hit
    unfold createDMGLikeBash
    rw [hfind]
    rcases hcw : env.createWithSizeOk with _ | _
    · simp
    · simp only [hcw]
      rcases hm : (tmpMount env.mount
          ("temp_" ++ normFileName cfg.fileName cfg.title)
          env.callbackResult).fst with e | u
      · simp [hm]
      · simp only [hm]
        rcases hcv : env.convertOk with _ | _ <;> simp [hcv]

theorem createDMGLikeBash_requires_app_witness :
    (createDMGLikeBash
        ⟨fun _ => none, true, ⟨true, true, true⟩, Except.ok (), true⟩
        { fileName := "out.dmg", title := "T", icon := "",
          labelSize := 0, contentsIconSize := 0, windowWidth := 0,
          windowHeight := 0, background := "",
          contents := [⟨0, 0, ItemType.file, "/a.txt"⟩],
          format := "", compressionLevel := "", useHardLinks := false,
          optimizeAppSize := false }).fst =
      Except.error "no .app directory found in contents"
    ∧ Action.createWithSize "T" "/B.app" "UDRW" "temp_out.dmg" 200 ∈
        (createDMGLikeBash
          ⟨fun _ => none, true, ⟨true, true, true⟩, Except.ok (), true⟩
          { fileName := "out.dmg", title := "T", icon := "",
            labelSize := 0, contentsIconSize := 0, windowWidth := 0,
            windowHeight := 0, background := "",
            contents := [⟨0, 0, ItemType.file, "/a.txt"⟩,
                         ⟨0, 0, ItemType.dir, "/B.app"⟩],
            format := "", compressionLevel := "", useHardLinks := false,
            optimizeAppSize := false }).snd := by
  constructor
  · exact (createDMGLikeBash_requires_app _ _).1 (by decide) |>.1
  · have h := (createDMGLikeBash_requires_app
      ⟨fun _ => none, true, ⟨true, true, true⟩, Except.ok (), true⟩
      { fileName := "out.dmg", title := "T", icon := "",
        labelSize := 0, contentsIconSize := 0, windowWidth := 0,
        windowHeight := 0, background := "",
        contents := [⟨0, 0, ItemType.file, "/a.txt"⟩,
                     ⟨0, 0, ItemType.dir, "/B.app"⟩],
        format := "", compressionLevel := "", useHardLinks := false,
        optimizeAppSize := false }).2
      [⟨0, 0, ItemType.file, "/a.txt"⟩] ⟨0, 0, ItemType.dir, "/B.app"⟩ []
      rfl (by decide) (by decide)
    simpa using h

theorem smartCopyEntries_names (l : List Entry) :
    (smartCopyEntries l).map entryName =
      ((l.filter (fun e => !shouldExclude (entryName e))).map entryName) := by
  induction l with
  | nil => simp [smartCopyEntries]
  | cons e rest ih =>
    cases e with
    | file n s =>
      by_cases h : shouldExclude n = true
      · simp [smartCopyEntries, h, entryName, ih]
      · simp only [Bool.not_eq_true] at h
        simp [smartCopyEntries, h, entryName, ih]
    | dir n cs =>
      by_cases h : shouldExclude n = true
      · simp [smartCopyEntries, h, entryName, ih]
      · simp only [Bool.not_eq_true] at h
        simp [smartCopyEntries, h, entryName, ih]

/-- C9: for every source directory, the smart-copy stager omits from
the destination every entry whose name matches the exclusion set — in
particular a `.DS_Store` file and a `__MACOSX` subdirectory — while
copying every non-excluded entry under its own name. -/
theorem smartCopyDir_filters (es : List Entry) :
    ((smartCopyEntries es).map entryName =
      ((es.filter (fun e => !shouldExclude (entryName e))).map entryName))
    ∧ (∀ n ∈ (smartCopyEntries es).map entryName, shouldExclude n = false)
    ∧ shouldExclude ".DS_Store" = true ∧ shouldExclude "__MACOSX" = true := by
  refine ⟨smartCopyEntries_names es, ?_, by decide, by decide⟩
  intro n hn
  rw [smartCopyEntries_names es] at hn
  rcases List.mem_map.mp hn with ⟨e, he, hname⟩
  rcases List.mem_filter.mp he with ⟨-, hkeep⟩
  simp only [Bool.not_eq_true'] at hkeep
  rw [← hname]
  exact hkeep

theorem smartCopyDir_filters_witness :
    shouldExclude "MyApp.txt" = false := by
  have h := smartCopyDir_filters
    [Entry.file ".DS_Store" 1, Entry.dir "__MACOSX" [],
     Entry.file "MyApp.txt" 3]
  refine h.2.1 "MyApp.txt" ?_
  simp [smartCopyEntries, shouldExclude, excludePatterns,
    matchPattern, hasSuffixS, entryName]
  exact ⟨Entry.file "MyApp.txt" 3, ⟨⟨by decide, by decide, by decide⟩, rfl⟩, rfl⟩

theorem calculateDirSize_counterexample :
    calculateDirSize [Entry.file "f" (100 * 1048576 + 1)] = 120 ∧
    leanClaimMB (entriesSize [Entry.file "f" (100 * 1048576 + 1)]) = 606 / 5 ∧
    ((calculateDirSize [Entry.file "f" (100 * 1048576 + 1)] : ℚ) ≠
      leanClaimMB (entriesSize [Entry.file "f" (100 * 1048576 + 1)])) := by
  have hs : entriesSize [Entry.file "f" (100 * 1048576 + 1)] = 104857601 := by
    simp [entriesSize]
  have h1 : calculateDirSize [Entry.file "f" (100 * 1048576 + 1)] = 120 := by
    rw [calculateDirSize, hs]
    norm_num [calculateDirSizeMB]
  have h2 : leanClaimMB
      (entriesSize [Entry.file "f" (100 * 1048576 + 1)]) = 606 / 5 := by
    rw [hs]
    norm_num [leanClaimMB]
  exact ⟨h1, h2, by rw [h1, h2]; norm_num⟩

/-- C4 (amended): in the hard-link-safe build variant, for a staged
tree whose files sum to S bytes the declared image capacity in
megabytes equals max(⌊S/1MiB⌋ + ⌊⌊S/1MiB⌋/5⌋, 100) — the megabyte count
is floored, not ceiled, and the 20% margin is itself truncated — with a
floor of 100 MB and no upper ceiling; the sum counts file sizes only,
directories are excluded. -/
theorem calculateDirSize_amended (es : List Entry) :
    calculateDirSize es =
      max 100 (entriesSize es / 1048576 + entriesSize es / 1048576 / 5) := by
  unfold calculateDirSize calculateDirSizeMB
  simp only [Nat.max_def]
  split <;> split <;> omega

theorem tmpMount_snd_no_createWithSize (env : MountEnv) (img : String)
    (r : Except String Unit) (t s f o : String) (n : Nat) :
    Action.createWithSize t s f o n ∉ (tmpMount env img r).snd := by
  rcases env with ⟨mk, at_, de⟩
  cases mk <;> cases at_ <;> cases de <;> simp [tmpMount]

theorem bashSizeMB_eq (S : Nat) :
    bashSizeMB S = max 200 (min 2000 (S / 1048576 + S / 1048576 / 2)) := by
  unfold bashSizeMB
  rw [show (1024 * 1024 : Nat) = 1048576 from rfl]
  simp only [Nat.max_def, Nat.min_def]
  split_ifs <;> omega

theorem bashCe_gen (s : Nat) :
    (createDMGLikeBash
        ⟨fun p => if p = "/A.app" then
            some (Entry.dir "A.app" [Entry.file "f" s])
          else none,
          true, ⟨true, true, true⟩, Except.ok (), true⟩
        { fileName := "", title := "T", icon := "", labelSize := 0,
          contentsIconSize := 0, windowWidth := 0, windowHeight := 0,
          background := "", contents := [⟨0, 0, ItemType.dir, "/A.app"⟩],
          format := "", compressionLevel := "", useHardLinks := false,
          optimizeAppSize := false }).snd =
      [Action.createWithSize "T" "/A.app" "UDRW" "temp_T.dmg" (bashSizeMB s),
       Action.attach "temp_T.dmg", Action.runCallback "temp_T.dmg",
       Action.convert "temp_T.dmg" "UDZO" "T.dmg"] := by
  have hnorm : normFileName "" "T" = "T.dmg" := by decide
  have happ : hasSuffixS "/A.app" ".app" = true := by decide
  simp [createDMGLikeBash, bashTotalSize, walkSize, entriesSize, tmpMount,
    hnorm, happ, isAppDirItem, List.find?]

theorem bashSize_counterexample :
    (createDMGLikeBash
        ⟨fun p => if p = "/A.app" then
            some (Entry.dir "A.app" [Entry.file "f" (201 * 1048576 + 1)])
          else none,
          true, ⟨true, true, true⟩, Except.ok (), true⟩
        { fileName := "", title := "T", icon := "", labelSize := 0,
          contentsIconSize := 0, windowWidth := 0, windowHeight := 0,
          background := "", contents := [⟨0, 0, ItemType.dir, "/A.app"⟩],
          format := "", compressionLevel := "", useHardLinks := false,
          optimizeAppSize := false }).snd =
      [Action.createWithSize "T" "/A.app" "UDRW" "temp_T.dmg" 301,
       Action.attach "temp_T.dmg", Action.runCallback "temp_T.dmg",
       Action.convert "temp_T.dmg" "UDZO" "T.dmg"] ∧
    bashClaimMB (201 * 1048576 + 1) = 303 ∧ ((301 : ℚ) ≠ 303) := by
  have hmb : bashSizeMB (201 * 1048576 + 1) = 301 := by
    rw [bashSizeMB_eq]
    omega
  have h := bashCe_gen (201 * 1048576 + 1)
  rw [hmb] at h
  exact ⟨h, by norm_num [bashClaimMB], by norm_num⟩

/-- C3 (amended): in the exact-size build variant, for content whose
walked files sum to S bytes, the declared image capacity passed to the
image-creation primitive equals clamp(⌊S/1MiB⌋ + ⌊⌊S/1MiB⌋/2⌋, 200,
2000) — the megabyte count is floored, not ceiled, and the 50% margin is
itself truncated — where the walked sum counts file sizes of the
`Dir`-typed items only, directories excluded from the sum. -/
theorem bashSize_amended (env : BashEnv) (cfg : Config) (t s f o : String)
    (n : Nat)
    (ha : Action.createWithSize t s f o n ∈ (createDMGLikeBash env cfg).snd) :
    n = max 200 (min 2000 (bashTotalSize env.fs cfg.contents / 1048576 +
      bashTotalSize env.fs cfg.contents / 1048576 / 2)) := by
  rw [← bashSizeMB_eq]
  unfold createDMGLikeBash at ha
  rcases hfind : cfg.contents.find? isAppDirItem with _ | app
  · rw [hfind] at ha
    simp at ha
  · rw [hfind] at ha
    rcases hcw : env.createWithSizeOk with _ | _
    · rw [hcw] at ha
      simp at ha
      exact ha.2.2.2.2
    · rw [hcw] at ha
      simp only [Bool.true_eq_false, if_false] at ha
      rcases hm : (tmpMount env.mount
          ("temp_" ++ normFileName cfg.fileName cfg.title)
          env.callbackResult).fst with e | u
      · rw [hm] at ha
        simp at ha
        rcases ha with ⟨-, -, -, -, hn⟩ | hmem
        · exact hn
        · exact absurd hmem (tmpMount_snd_no_createWithSize _ _ _ t s f o n)
      · rw [hm] at ha
        rcases hcv : env.convertOk with _ | _ <;> rw [hcv] at ha <;>
          simp at ha <;> rcases ha with ⟨-, -, -, -, hn⟩ | hmem
        · exact hn
        · exact absurd hmem (tmpMount_snd_no_createWithSize _ _ _ t s f o n)
        · exact hn
        · exact absurd hmem (tmpMount_snd_no_createWithSize _ _ _ t s f o n)

theorem bashSize_amended_witness :
    (200 : Nat) = max 200 (min 2000
      (bashTotalSize (fun _ => none) [⟨0, 0, ItemType.dir, "/A.app"⟩] / 1048576 +
       bashTotalSize (fun _ => none) [⟨0, 0, ItemType.dir, "/A.app"⟩] / 1048576 / 2)) := by
  refine bashSize_amended
    ⟨fun _ => none, true, ⟨true, true, true⟩, Except.ok (), true⟩
    { fileName := "", title := "T", icon := "", labelSize := 0,
      contentsIconSize := 0, windowWidth := 0, windowHeight := 0,
      background := "", contents := [⟨0, 0, ItemType.dir, "/A.app"⟩],
      format := "", compressionLevel := "", useHardLinks := false,
      optimizeAppSize := false }
    "T" "/A.app" "UDRW" "temp_T.dmg" 200 ?_
  have hnorm : normFileName "" "T" = "T.dmg" := by decide
  have happ : hasSuffixS "/A.app" ".app" = true := by decide
  simp [createDMGLikeBash, bashTotalSize, tmpMount, bashSizeMB,
    hnorm, happ, isAppDirItem, List.find?]

theorem hardLinkStage_ok (linkOk copyOk : String → Bool) :
    ∀ (base : String) (es : List Entry),
    (∀ p ∈ filePaths base es, linkOk p = true ∨ copyOk p = true) →
    hardLinkStage linkOk copyOk base es =
      Except.ok (hardLinkExpected linkOk base es) := by
  intro base es
  induction base, es using hardLinkStage.induct linkOk copyOk with
  | case1 b =>
    intro _
    simp [hardLinkStage, hardLinkExpected]
  | case2 b name s rest p hl ih =>
    intro h
    simp only [filePaths] at h
    have hl2 : linkOk (b ++ "/" ++ name) = true := hl
    have hrest := ih (fun q hq => h q (List.mem_cons_of_mem _ hq))
    simp [hardLinkStage, hardLinkExpected, hl2, hrest, Except.map]
  | case3 b name s rest p hnl hc ih =>
    intro h
    simp only [filePaths] at h
    have hnl2 : linkOk (b ++ "/" ++ name) = false := Bool.eq_false_iff.mpr hnl
    have hc2 : copyOk (b ++ "/" ++ name) = true := hc
    have hrest := ih (fun q hq => h q (List.mem_cons_of_mem _ hq))
    simp [hardLinkStage, hardLinkExpected, hnl2, hc2, hrest, Except.map]
  | case4 b name s rest p hnl hnc =>
    intro h
    exfalso
    simp only [filePaths] at h
    rcases h (b ++ "/" ++ name) (List.mem_cons_self _ _) with h1 | h1
    · exact hnl h1
    · exact hnc h1
  | case5 b name cs rest e herr ihcs =>
    intro h
    exfalso
    simp only [filePaths] at h
    have hcs := ihcs (fun q hq => h q (List.mem_append_left _ hq))
    rw [hcs] at herr
    exact Except.noConfusion herr
  | case6 b name cs rest c hok ihcs ihrest =>
    intro h
    simp only [filePaths] at h
    have hcs := ihcs (fun q hq => h q (List.mem_append_left _ hq))
    have hrest := ihrest (fun q hq => h q (List.mem_append_right _ hq))
    simp [hardLinkStage, hardLinkExpected, hcs, hrest, Except.map]

theorem hardLinkStage_error (linkOk copyOk : String → Bool) :
    ∀ (base : String) (es : List Entry) (p : String),
    hardLinkStage linkOk copyOk base es = Except.error p →
    p ∈ filePaths base es ∧ linkOk p = false ∧ copyOk p = false := by
  intro base es
  induction base, es using hardLinkStage.induct linkOk copyOk with
  | case1 b =>
    intro q hq
    simp [hardLinkStage] at hq
  | case2 b name s rest p hl ih =>
    intro q hq
    have hl2 : linkOk (b ++ "/" ++ name) = true := hl
    simp only [hardLinkStage, hl2, if_true] at hq
    rcases hstage : hardLinkStage linkOk copyOk b rest with e | l
    · rw [hstage] at hq
      simp only [Except.map] at hq
      injection hq with he
      subst he
      have h2 := ih _ hstage
      refine ⟨?_, h2.2.1, h2.2.2⟩
      simp only [filePaths]
      exact List.mem_cons_of_mem _ h2.1
    · rw [hstage] at hq
      simp [Except.map] at hq
  | case3 b name s rest p hnl hc ih =>
    intro q hq
    have hnl2 : linkOk (b ++ "/" ++ name) = false := Bool.eq_false_iff.mpr hnl
    have hc2 : copyOk (b ++ "/" ++ name) = true := hc
    simp only [hardLinkStage, hnl2, hc2, Bool.false_eq_true, if_false,
      if_true] at hq
    rcases hstage : hardLinkStage linkOk copyOk b rest with e | l
    · rw [hstage] at hq
      simp only [Except.map] at hq
      injection hq with he
      subst he
      have h2 := ih _ hstage
      refine ⟨?_, h2.2.1, h2.2.2⟩
      simp only [filePaths]
      exact List.mem_cons_of_mem _ h2.1
    · rw [hstage] at hq
      simp [Except.map] at hq
  | case4 b name s rest p hnl hnc =>
    intro q hq
    have hnl2 : linkOk (b ++ "/" ++ name) = false := Bool.eq_false_iff.mpr hnl
    have hnc2 : copyOk (b ++ "/" ++ name) = false := Bool.eq_false_iff.mpr hnc
    simp only [hardLinkStage, hnl2, hnc2, Bool.false_eq_true, if_false] at hq
    injection hq with he
    subst he
    refine ⟨?_, hnl2, hnc2⟩
    simp only [filePaths]
    exact List.mem_cons_self _ _
  | case5 b name cs rest e herr ihcs =>
    intro q hq
    simp only [hardLinkStage, herr] at hq
    injection hq with he
    subst he
    have h2 := ihcs _ herr
    refine ⟨?_, h2.2.1, h2.2.2⟩
    simp only [filePaths]
    exact List.mem_append_left _ h2.1
  | case6 b name cs rest c hok ihcs ihrest =>
    intro q hq
    simp only [hardLinkStage, hok] at hq
    rcases hstage : hardLinkStage linkOk copyOk b rest with e | l
    · rw [hstage] at hq
      simp only [Except.map] at hq
      injection hq with he
      subst he
      have h2 := ihrest _ hstage
      refine ⟨?_, h2.2.1, h2.2.2⟩
      simp only [filePaths]
      exact List.mem_append_right _ h2.1
    · rw [hstage] at hq
      simp [Except.map] at hq

/-- C7: in the hard-link staging machinery, each file first attempts a
hard link to the original; when the link fails (for any reason) that
file alone falls back to a full copy, other files are still
hard-linked, and the copy fails the build — with an error carrying the
offending path — only when the fallback copy fails as well. -/
theorem hardLink_fallback (linkOk copyOk : String → Bool) (base : String)
    (es : List Entry) :
    ((∀ p ∈ filePaths base es, linkOk p = true ∨ copyOk p = true) →
      hardLinkStage linkOk copyOk base es =
        Except.ok (hardLinkExpected linkOk base es))
    ∧ (∀ p, hardLinkStage linkOk copyOk base es = Except.error p →
        p ∈ filePaths base es ∧ linkOk p = false ∧ copyOk p = false) :=
  ⟨hardLinkStage_ok linkOk copyOk base es,
   hardLinkStage_error linkOk copyOk base es⟩

theorem hardLink_fallback_witness :
    hardLinkStage (fun p => p == "/src/a") (fun _ => true) "/src"
        [Entry.file "a" 1, Entry.dir "d" [Entry.file "b" 2]] =
      Except.ok [Staged.linked "a" 1, Staged.dir "d" [Staged.copied "b" 2]] := by
  have h := (hardLink_fallback (fun p => p == "/src/a") (fun _ => true)
    "/src" [Entry.file "a" 1, Entry.dir "d" [Entry.file "b" 2]]).1
    (by simp [filePaths])
  rw [h]
  simp [hardLinkExpected]

theorem stageOne_name (env : StageEnv) (u : Bool) (it : Item)
    (e : String × Method) (h : stageOne env u it = Except.ok e) :
    e.fst = basename it.path := by
  rcases it with ⟨x, y, ty, path⟩
  cases ty <;> simp only [stageOne] at h <;> split_ifs at h <;> simp_all <;>
    rw [← h]

theorem stageOneSafe_name (env : StageEnv) (it : Item)
    (e : String × Method) (h : stageOneSafe env it = Except.ok e) :
    e.fst = basename it.path := by
  rcases it with ⟨x, y, ty, path⟩
  cases ty <;> simp only [stageOneSafe] at h <;> split_ifs at h <;> simp_all <;>
    rw [← h]

theorem setupStage_names (env : StageEnv) (u : Bool) :
    ∀ (items : List Item) (l : List (String × Method)),
    setupStage env u items = Except.ok l →
    l.map Prod.fst = items.map (fun it => basename it.path) := by
  intro items
  induction items with
  | nil =>
    intro l h
    simp only [setupStage] at h
    injection h with hl
    subst hl
    simp
  | cons it rest ih =>
    intro l h
    simp only [setupStage] at h
    rcases h1 : stageOne env u it with e | entry
    · rw [h1] at h
      exact absurd h (by simp)
    · rw [h1] at h
      rcases h2 : setupStage env u rest with e2 | r
      · rw [h2] at h
        simp [Except.map] at h
      · rw [h2] at h
        simp only [Except.map] at h
        injection h with hl
        subst hl
        simp only [List.map_cons]
        rw [stageOne_name env u it entry h1, ih r h2]

theorem safeStage_names (env : StageEnv) :
    ∀ (items : List Item) (l : List (String × Method)),
    safeStage env items = Except.ok l →
    l.map Prod.fst = items.map (fun it => basename it.path) := by
  intro items
  induction items with
  | nil =>
    intro l h
    simp only [safeStage] at h
    injection h with hl
    subst hl
    simp
  | cons it rest ih =>
    intro l h
    simp only [safeStage] at h
    rcases h1 : stageOneSafe env it with e | entry
    · rw [h1] at h
      exact absurd h (by simp)
    · rw [h1] at h
      rcases h2 : safeStage env rest with e2 | r
      · rw [h2] at h
        simp [Except.map] at h
      · rw [h2] at h
        simp only [Except.map] at h
        injection h with hl
        subst hl
        simp only [List.map_cons]
        rw [stageOneSafe_name env it entry h1, ih r h2]

theorem symlinkStage_names (env : StageEnv) :
    ∀ (items : List Item) (l : List (String × Method)),
    symlinkStage env items = Except.ok l →
    l.map Prod.fst = items.map (fun it => basename it.path) := by
  intro items
  induction items with
  | nil =>
    intro l h
    simp only [symlinkStage] at h
    injection h with hl
    subst hl
    simp
  | cons it rest ih =>
    intro l h
    simp only [symlinkStage] at h
    split_ifs at h
    rcases h2 : symlinkStage env rest with e2 | r
    · rw [h2] at h
      simp [Except.map] at h
    · rw [h2] at h
      simp only [Except.map] at h
      injection h with hl
      subst hl
      simp only [List.map_cons]
      rw [ih r h2]

/-- C8: for every Contents list whose items have pairwise distinct base
names, each staging strategy — direct copy (`setupSourceDirectory`
without hard links), hard-link (`setupSourceDirectory` with hard
links), safe hard-link (`createDMGWithSafeHardLinks`), and
symlink-direct (`createSymbolicLinks`) — materializes, whenever it
succeeds, exactly one entry per item in the working directory, named by
the base name of the item's source path. -/
theorem staging_unique_names (env : StageEnv) (contents : List Item)
    (hnd : (contents.map (fun it => basename it.path)).Nodup) :
    (∀ l, setupStage env false contents = Except.ok l →
      l.map Prod.fst = contents.map (fun it => basename it.path) ∧
      ∀ it ∈ contents, List.count (basename it.path) (l.map Prod.fst) = 1)
    ∧ (∀ l, setupStage env true contents = Except.ok l →
      l.map Prod.fst = contents.map (fun it => basename it.path) ∧
      ∀ it ∈ contents, List.count (basename it.path) (l.map Prod.fst) = 1)
    ∧ (∀ l, safeStage env contents = Except.ok l →
      l.map Prod.fst = contents.map (fun it => basename it.path) ∧
      ∀ it ∈ contents, List.count (basename it.path) (l.map Prod.fst) = 1)
    ∧ (∀ l, symlinkStage env contents = Except.ok l →
      l.map Prod.fst = contents.map (fun it => basename it.path) ∧
      ∀ it ∈ contents, List.count (basename it.path) (l.map Prod.fst) = 1) := by
  have key : ∀ (l : List (String × Method)),
      l.map Prod.fst = contents.map (fun it => basename it.path) →
      ∀ it ∈ contents,
      List.count (basename it.path) (l.map Prod.fst) = 1 := by
    intro l hl it hit
    rw [hl]
    exact List.count_eq_one_of_mem hnd (List.mem_map_of_mem _ hit)
  refine ⟨fun l h => ?_, fun l h => ?_, fun l h => ?_, fun l h => ?_⟩
  · have hn := setupStage_names env false contents l h
    exact ⟨hn, key l hn⟩
  · have hn := setupStage_names env true contents l h
    exact ⟨hn, key l hn⟩
  · have hn := safeStage_names env contents l h
    exact ⟨hn, key l hn⟩
  · have hn := symlinkStage_names env contents l h
    exact ⟨hn, key l hn⟩

theorem staging_unique_names_witness :
    setupStage
      ⟨fun _ => true, fun _ => true, fun _ => true, fun _ => true,
       fun _ => true, fun _ => true⟩ false
      [⟨0, 0, ItemType.file, "/x/a"⟩, ⟨0, 0, ItemType.dir, "/y/B.app"⟩]
      = Except.ok [("a", Method.copiedFile), ("B.app", Method.smartCopiedDir)]
    ∧ ["a", "B.app"] = [basename "/x/a", basename "/y/B.app"]
    ∧ List.count "a" (["a", "B.app"] : List String) = 1 := by
  have h := staging_unique_names
    ⟨fun _ => true, fun _ => true, fun _ => true, fun _ => true,
     fun _ => true, fun _ => true⟩
    [⟨0, 0, ItemType.file, "/x/a"⟩, ⟨0, 0, ItemType.dir, "/y/B.app"⟩]
    (by decide)
  have h1 := h.1 [("a", Method.copiedFile), ("B.app", Method.smartCopiedDir)]
    rfl
  refine ⟨rfl, ?_, ?_⟩
  · have h2 := h1.1
    simpa using h2
  · exact h1.2 ⟨0, 0, ItemType.file, "/x/a"⟩ (by decide)

theorem outsOk_nil : outsOk [] := by
  intro a ha
  simp at ha

theorem outsOk_cons {a : Action} {t : List Action}
    (h : ∀ o, actionOutFile a = some o → hasSuffixS o ".dmg" = true)
    (ht : outsOk t) : outsOk (a :: t) := by
  intro b hb o hbo
  rcases List.mem_cons.mp hb with rfl | hb2
  · exact h o hbo
  · exact ht b hb2 o hbo

theorem outsOk_append {t1 t2 : List Action} (h1 : outsOk t1)
    (h2 : outsOk t2) : outsOk (t1 ++ t2) := by
  intro a ha o hao
  rcases List.mem_append.mp ha with h | h
  · exact h1 a h o hao
  · exact h2 a h o hao

theorem tmpMount_outsOk (env : MountEnv) (img : String)
    (r : Except String Unit) : outsOk (tmpMount env img r).snd := by
  rcases env with ⟨mk, at_, de⟩
  cases mk <;> cases at_ <;> cases de <;>
    intro a ha o hao <;>
    simp [tmpMount] at ha <;>
    (rcases ha with rfl | rfl | rfl <;> simp [actionOutFile] at hao)

theorem finishBuild_outsOk {b : Except String Unit × List Action}
    {t : List Action} (hb : outsOk b.snd) (ht : outsOk t) :
    outsOk (finishBuild b t).snd := by
  rcases b with ⟨r, tr⟩
  rcases r with e | u
  · exact hb
  · exact outsOk_append hb ht

theorem compressedCore_outsOk (env : ConvEnv) (cfg : Config) (src : String)
    (sz : Option Nat) (hf : hasSuffixS cfg.fileName ".dmg" = true) :
    outsOk (compressedCore env cfg src sz).snd := by
  have htmp : hasSuffixS ("temp_" ++ cfg.fileName) ".dmg" = true :=
    hasSuffixS_append_left _ _ _ hf
  have hact : ∀ o, actionOutFile (match sz with
      | none => Action.create cfg.title src "UDRW" ("temp_" ++ cfg.fileName)
      | some n => Action.createWithSize cfg.title src "UDRW"
          ("temp_" ++ cfg.fileName) n) = some o →
      hasSuffixS o ".dmg" = true := by
    rcases sz with _ | n <;> intro o ho <;> simp [actionOutFile] at ho <;>
      (subst ho; exact htmp)
  have hmnt : outsOk (if (cfg.icon = "" && cfg.background = "") = true then
      ((Except.ok () : Except String Unit), ([] : List Action))
    else tmpMount env.mount ("temp_" ++ cfg.fileName) env.callbackResult).snd := by
    split
    · exact outsOk_nil
    · exact tmpMount_outsOk _ _ _
  have hcv : ∀ o, actionOutFile (Action.convert ("temp_" ++ cfg.fileName)
      cfg.format cfg.fileName) = some o → hasSuffixS o ".dmg" = true := by
    intro o ho
    simp [actionOutFile] at ho
    subst ho
    exact hf
  have hfd : ∀ o, actionOutFile (Action.forceDetach ("temp_" ++ cfg.fileName))
      = some o → hasSuffixS o ".dmg" = true := by
    intro o ho
    simp [actionOutFile] at ho
  simp only [compressedCore]
  split
  · exact outsOk_cons hact outsOk_nil
  · split
    · exact outsOk_cons hact hmnt
    · split
      · exact outsOk_cons hact (outsOk_append hmnt
          (outsOk_cons hfd (outsOk_cons hcv outsOk_nil)))
      · exact outsOk_cons hact (outsOk_append hmnt
          (outsOk_cons hfd (outsOk_cons hcv outsOk_nil)))

theorem createDMG_outsOk (env : CreateEnv) (cfg : Config)
    (h : cfg.useHardLinks = false) : outsOk (createDMG env cfg).snd := by
  have hfn : hasSuffixS (normFileName cfg.fileName cfg.title) ".dmg" = true :=
    normFileName_hasSuffix _ _
  have hcr : ∀ (t s f : String), ∀ o, actionOutFile (Action.create t s f
      (normFileName cfg.fileName cfg.title)) = some o →
      hasSuffixS o ".dmg" = true := by
    intro t s f o ho
    simp [actionOutFile] at ho
    subst ho
    exact hfn
  have hcv : ∀ (x f : String), ∀ o, actionOutFile (Action.convert x f
      (normFileName cfg.fileName cfg.title)) = some o →
      hasSuffixS o ".dmg" = true := by
    intro x f o ho
    simp [actionOutFile] at ho
    subst ho
    exact hfn
  have hsfi : outsOk (if cfg.icon ≠ "" then
      [Action.setFileIcon (normFileName cfg.fileName cfg.title)] else []) := by
    split
    · intro a ha o hao
      simp at ha
      subst ha
      simp [actionOutFile] at hao
    · exact outsOk_nil
  simp only [createDMG, h, Bool.false_eq_true, if_false]
  split
  · exact outsOk_nil
  · split
    · exact outsOk_nil
    · split
      · exact outsOk_nil
      · apply finishBuild_outsOk
        · split
          · exact compressedCore_outsOk _ _ _ _ hfn
          · split
            · exact outsOk_cons (hcr _ _ _) outsOk_nil
            · split
              · split
                · exact outsOk_cons (hcr _ _ _) outsOk_nil
                · split <;>
                    exact outsOk_append (outsOk_cons (hcr _ _ _) outsOk_nil)
                      (outsOk_cons (hcv _ _) outsOk_nil)
              · exact outsOk_cons (hcr _ _ _) outsOk_nil
        · apply outsOk_append
          · split
            · exact tmpMount_outsOk _ _ _
            · exact outsOk_nil
          · exact hsfi


theorem createDMGDirect_outsOk (env : DirectEnv) (cfg : Config) :
    outsOk (createDMGDirect env cfg).snd := by
  have hfn : hasSuffixS (normFileName cfg.fileName cfg.title) ".dmg" = true :=
    normFileName_hasSuffix _ _
  have hcr : ∀ (t s f : String), ∀ o, actionOutFile (Action.create t s f
      (normFileName cfg.fileName cfg.title)) = some o →
      hasSuffixS o ".dmg" = true := by
    intro t s f o ho
    simp [actionOutFile] at ho
    subst ho
    exact hfn
  have hcv : ∀ (x f : String), ∀ o, actionOutFile (Action.convert x f
      (normFileName cfg.fileName cfg.title)) = some o →
      hasSuffixS o ".dmg" = true := by
    intro x f o ho
    simp [actionOutFile] at ho
    subst ho
    exact hfn
  have hsfi : outsOk (if cfg.icon ≠ "" then
      [Action.setFileIcon (normFileName cfg.fileName cfg.title)] else []) := by
    split
    · intro a ha o hao
      simp at ha
      subst ha
      simp [actionOutFile] at hao
    · exact outsOk_nil
  simp only [createDMGDirect]
  split
  · exact outsOk_nil
  · split
    · exact outsOk_nil
    · split
      · exact outsOk_nil
      · apply finishBuild_outsOk
        · split
          · exact compressedCore_outsOk _ _ _ _ hfn
          · split
            · exact outsOk_cons (hcr _ _ _) outsOk_nil
            · split
              · split
                · exact outsOk_cons (hcr _ _ _) outsOk_nil
                · split <;>
                    exact outsOk_append (outsOk_cons (hcr _ _ _) outsOk_nil)
                      (outsOk_cons (hcv _ _) outsOk_nil)
              · exact outsOk_cons (hcr _ _ _) outsOk_nil
        · exact hsfi

theorem createDMGLikeBash_outsOk (env : BashEnv) (cfg : Config) :
    outsOk (createDMGLikeBash env cfg).snd := by
  have hfn : hasSuffixS (normFileName cfg.fileName cfg.title) ".dmg" = true :=
    normFileName_hasSuffix _ _
  have htmp : hasSuffixS ("temp_" ++ normFileName cfg.fileName cfg.title)
      ".dmg" = true := hasSuffixS_append_left _ _ _ hfn
  have hcws : ∀ (t s f : String) (n : Nat), ∀ o, actionOutFile
      (Action.createWithSize t s f
        ("temp_" ++ normFileName cfg.fileName cfg.title) n) = some o →
      hasSuffixS o ".dmg" = true := by
    intro t s f n o ho
    simp [actionOutFile] at ho
    subst ho
    exact htmp
  have hcv : ∀ o, actionOutFile (Action.convert
      ("temp_" ++ normFileName cfg.fileName cfg.title) "UDZO"
      (normFileName cfg.fileName cfg.title)) = some o →
      hasSuffixS o ".dmg" = true := by
    intro o ho
    simp [actionOutFile] at ho
    subst ho
    exact hfn
  have hsfi : outsOk (if cfg.icon ≠ "" then
      [Action.setFileIcon (normFileName cfg.fileName cfg.title)] else []) := by
    split
    · intro a ha o hao
      simp at ha
      subst ha
      simp [actionOutFile] at hao
    · exact outsOk_nil
  simp only [createDMGLikeBash]
  split
  · exact outsOk_nil
  · split
    · exact outsOk_cons (hcws _ _ _ _) outsOk_nil
    · split
      · exact outsOk_cons (hcws _ _ _ _) (tmpMount_outsOk _ _ _)
      · split
        · exact outsOk_cons (hcws _ _ _ _)
            (outsOk_append (tmpMount_outsOk _ _ _)
              (outsOk_cons hcv outsOk_nil))
        · exact outsOk_append (outsOk_cons (hcws _ _ _ _)
            (outsOk_append (tmpMount_outsOk _ _ _)
              (outsOk_cons hcv outsOk_nil))) hsfi

theorem compressedCore_ok_mem_convert (env : ConvEnv) (cfg : Config)
    (src : String) (sz : Option Nat)
    (h : (compressedCore env cfg src sz).fst = Except.ok ()) :
    Action.convert ("temp_" ++ cfg.fileName) cfg.format cfg.fileName ∈
      (compressedCore env cfg src sz).snd := by
  rcases hc : env.createOk with _ | _
  · simp [compressedCore, hc] at h
  · rcases hcond : (decide (cfg.icon = "") && decide (cfg.background = ""))
        with _ | _
    · rcases hm : (tmpMount env.mount ("temp_" ++ cfg.fileName)
          env.callbackResult).fst with e | u
      · simp [compressedCore, hc, hcond, hm] at h
      · rcases hcv : env.convertOk with _ | _
        · simp [compressedCore, hc, hcond, hm, hcv] at h
        · simp [compressedCore, hc, hcond, hm, hcv]
    · rcases hcv : env.convertOk with _ | _
      · simp [compressedCore, hc, hcond, hcv] at h
      · simp [compressedCore, hc, hcond, hcv]


theorem finishBuild_fst_ok {b : Except String Unit × List Action}
    {t : List Action} (h : (finishBuild b t).fst = Except.ok ()) :
    b.fst = Except.ok () := by
  rcases b with ⟨r, tr⟩
  rcases r with e | u
  · simp [finishBuild] at h
  · rfl

theorem finishBuild_snd_mem {b : Except String Unit × List Action}
    {t : List Action} {a : Action} (hb : a ∈ b.snd)
    (h : b.fst = Except.ok ()) : a ∈ (finishBuild b t).snd := by
  rcases b with ⟨r, tr⟩
  rcases r with e | u
  · simp at h
  · exact List.mem_append_left _ hb

theorem mapError_ok {f : String → String} {r : Except String Unit}
    (h : Except.mapError f r = Except.ok ()) : r = Except.ok () := by
  rcases r with e | u
  · simp [Except.mapError] at h
  · rfl

theorem createDMG_format_default_mem (env : CreateEnv) (cfg : Config)
    (hh : cfg.useHardLinks = false) (hf : cfg.format = "")
    (hok : (createDMG env cfg).fst = Except.ok ()) :
    Action.convert ("temp_" ++ normFileName cfg.fileName cfg.title) "UDZO"
        (normFileName cfg.fileName cfg.title) ∈ (createDMG env cfg).snd := by
  rcases hmk : env.mkdirAllOk with _ | _
  · simp [createDMG, hh, hmk] at hok
  · rcases hsetup : setupSourceDirectory env.stage env.bgOk cfg with e | l
    · simp [createDMG, hh, hmk, hsetup] at hok
    · rcases hsw : env.storeWriteOk with _ | _
      · simp [createDMG, hh, hmk, hsetup, hsw] at hok
      · have hfmt : normFormat cfg.format = "UDZO" := by
          simp [hf, normFormat]
        simp only [createDMG, hh, Bool.false_eq_true, if_false, hmk,
          Bool.true_eq_false, hsetup, hsw, hfmt, createCompressedDMG,
          decide_True, Bool.true_or, eq_self_iff_true, if_true] at hok ⊢
        refine finishBuild_snd_mem ?_ (finishBuild_fst_ok hok)
        have hccok := mapError_ok (finishBuild_fst_ok hok)
        exact compressedCore_ok_mem_convert _ _ _ _ hccok


theorem createDMG_hardlink_skips_normalization :
    createDMG
      { mkdirAllOk := true,
        stage := ⟨fun _ => true, fun _ => true, fun _ => true, fun _ => true,
                  fun _ => true, fun _ => true⟩,
        bgOk := true, storeWriteOk := true,
        conv := ⟨true, ⟨true, true, true⟩, Except.ok (), true⟩,
        createOk := true, renameOk := true, convertOk := true,
        mount := ⟨true, true, true⟩, customizeResult := Except.ok (),
        safe := ⟨true, ⟨fun _ => true, fun _ => true, fun _ => true,
                  fun _ => true, fun _ => true, fun _ => true⟩, true, true, 0,
                 ⟨true, ⟨true, true, true⟩, Except.ok (), true⟩, true⟩ }
      { fileName := "", title := "T", icon := "", labelSize := 0,
        contentsIconSize := 0, windowWidth := 0, windowHeight := 0,
        background := "", contents := [], format := "",
        compressionLevel := "", useHardLinks := true,
        optimizeAppSize := false } =
      (Except.ok (), [Action.createWithSize "T" "safeTempDir" "" "" 100])
    ∧ hasSuffixS "" ".dmg" = false ∧ ("" : String) ≠ "UDZO" := by
  refine ⟨rfl, by decide, by decide⟩

/-- C2 (amended): the configuration normalization — an empty FileName
becoming Title + ".dmg", a missing ".dmg" suffix appended, and an unset
Format replaced by the compressed default UDZO before any image is
created — holds for `CreateDMG` without `UseHardLinks`, for
`CreateDMGDirect`, and (for the file name; the format is ignored there)
for `CreateDMGLikeBash`: every image file such a build creates or
converts to has a name ending in ".dmg", and an unset format makes the
build produce its image through the UDZO conversion. On the
`UseHardLinks` path of `CreateDMG` the claim fails: the delegation to
`createDMGWithSafeHardLinks` happens before normalization and that
function applies neither default (see the counterexample). -/
theorem normalization_nonhardlink :
    (∀ f t, hasSuffixS (normFileName f t) ".dmg" = true)
    ∧ (∀ t, normFileName "" t = t ++ ".dmg")
    ∧ normFormat "" = "UDZO"
    ∧ (∀ env cfg, cfg.useHardLinks = false → outsOk (createDMG env cfg).snd)
    ∧ (∀ env cfg, outsOk (createDMGDirect env cfg).snd)
    ∧ (∀ env cfg, outsOk (createDMGLikeBash env cfg).snd)
    ∧ (∀ env cfg, cfg.useHardLinks = false → cfg.format = "" →
        (createDMG env cfg).fst = Except.ok () →
        Action.convert ("temp_" ++ normFileName cfg.fileName cfg.title)
            "UDZO" (normFileName cfg.fileName cfg.title) ∈
          (createDMG env cfg).snd) := by
  refine ⟨normFileName_hasSuffix, ?_, rfl, createDMG_outsOk,
    createDMGDirect_outsOk, createDMGLikeBash_outsOk,
    createDMG_format_default_mem⟩
  intro t
  simp [normFileName, hasSuffixS_append]

theorem normalization_nonhardlink_witness :
    Action.convert "temp_T.dmg" "UDZO" "T.dmg" ∈
      (createDMG
        { mkdirAllOk := true,
          stage := ⟨fun _ => true, fun _ => true, fun _ => true, fun _ => true,
                    fun _ => true, fun _ => true⟩,
          bgOk := true, storeWriteOk := true,
          conv := ⟨true, ⟨true, true, true⟩, Except.ok (), true⟩,
          createOk := true, renameOk := true, convertOk := true,
          mount := ⟨true, true, true⟩, customizeResult := Except.ok (),
          safe := ⟨true, ⟨fun _ => true, fun _ => true, fun _ => true,
                    fun _ => true, fun _ => true, fun _ => true⟩, true, true, 0,
                   ⟨true, ⟨true, true, true⟩, Except.ok (), true⟩, true⟩ }
        { fileName := "", title := "T", icon := "", labelSize := 0,
          contentsIconSize := 0, windowWidth := 0, windowHeight := 0,
          background := "", contents := [], format := "",
          compressionLevel := "", useHardLinks := false,
          optimizeAppSize := false }).snd := by
  have h := normalization_nonhardlink.2.2.2.2.2.2
    { mkdirAllOk := true,
      stage := ⟨fun _ => true, fun _ => true, fun _ => true, fun _ => true,
                fun _ => true, fun _ => true⟩,
      bgOk := true, storeWriteOk := true,
      conv := ⟨true, ⟨true, true, true⟩, Except.ok (), true⟩,
      createOk := true, renameOk := true, convertOk := true,
      mount := ⟨true, true, true⟩, customizeResult := Except.ok (),
      safe := ⟨true, ⟨fun _ => true, fun _ => true, fun _ => true,
                fun _ => true, fun _ => true, fun _ => true⟩, true, true, 0,
               ⟨true, ⟨true, true, true⟩, Except.ok (), true⟩, true⟩ }
    { fileName := "", title := "T", icon := "", labelSize := 0,
      contentsIconSize := 0, windowWidth := 0, windowHeight := 0,
      background := "", contents := [], format := "",
      compressionLevel := "", useHardLinks := false,
      optimizeAppSize := false } rfl rfl rfl
  exact h


/-- C5 (code-bug exhibit): a `Config` with a non-empty Icon whose
volume-customization step (the `tmpMount` at lines 124-140) fails still
makes `CreateDMG` return success: the error assigned to `err` at line
126 is never checked and `CreateDMG` unconditionally returns `nil`,
contradicting the propagation policy of the specification. The trace
below shows the customization callback did run (and its result was an
error), yet the returned value is `Except.ok ()`. -/
theorem createDMG_swallows_customize_error :
    (createDMG
      { mkdirAllOk := true,
        stage := ⟨fun _ => true, fun _ => true, fun _ => true, fun _ => true,
                  fun _ => true, fun _ => true⟩,
        bgOk := true, storeWriteOk := true,
        conv := ⟨true, ⟨true, true, true⟩, Except.ok (), true⟩,
        createOk := true, renameOk := true, convertOk := true,
        mount := ⟨true, true, true⟩,
        customizeResult := Except.error "failed to set DMG icon: exit status 1",
        safe := ⟨true, ⟨fun _ => true, fun _ => true, fun _ => true,
                  fun _ => true, fun _ => true, fun _ => true⟩, true, true, 0,
                 ⟨true, ⟨true, true, true⟩, Except.ok (), true⟩, true⟩ }
      { fileName := "out.dmg", title := "T", icon := "i.icns", labelSize := 0,
        contentsIconSize := 0, windowWidth := 0, windowHeight := 0,
        background := "", contents := [], format := "UDRO",
        compressionLevel := "", useHardLinks := false,
        optimizeAppSize := false }).fst = Except.ok ()
    ∧ Action.runCallback "out.dmg" ∈
        (createDMG
          { mkdirAllOk := true,
            stage := ⟨fun _ => true, fun _ => true, fun _ => true, fun _ => true,
                      fun _ => true, fun _ => true⟩,
            bgOk := true, storeWriteOk := true,
            conv := ⟨true, ⟨true, true, true⟩, Except.ok (), true⟩,
            createOk := true, renameOk := true, convertOk := true,
            mount := ⟨true, true, true⟩,
            customizeResult := Except.error "failed to set DMG icon: exit status 1",
            safe := ⟨true, ⟨fun _ => true, fun _ => true, fun _ => true,
                      fun _ => true, fun _ => true, fun _ => true⟩, true, true, 0,
                     ⟨true, ⟨true, true, true⟩, Except.ok (), true⟩, true⟩ }
          { fileName := "out.dmg", title := "T", icon := "i.icns", labelSize := 0,
            contentsIconSize := 0, windowWidth := 0, windowHeight := 0,
            background := "", contents := [], format := "UDRO",
            compressionLevel := "", useHardLinks := false,
            optimizeAppSize := false }).snd := by
  exact ⟨rfl, by decide⟩

end ZappDMG
